import Mathlib

/-!
Verification of the gravity.yaml importer (SidingsMedia/gravity.yaml).

The development shallowly embeds the pipeline of
`gravityyaml/gravityyaml.py` (class `GravityYAML`: `load_yaml`,
`init_database`, `populate_database`, `run`) together with the exit-code
mapping of `gravityyaml/cli.py`.  The standalone `gravityyaml.py`
(`Application`) contains the same group/adlist/membership loops and is
covered by the same embedding of those loops.

Mutation of the sqlite store is modelled by explicit state passing: a
`DB` value holds the three tables the importer writes, and each insert
appends a row and returns the generated rowid (sqlite rowids of a fresh
table are 1, 2, 3, ... in insertion order).  The filesystem seen by
`init_database` is a map from paths to optional store contents.
-/

set_option autoImplicit false

namespace GravityYaml

/-! ### Parsed YAML document

`load_yaml` stores the result of `yaml.safe_load` and `populate_database`
reads it with dict indexing (`self._data["groups"]`) and `dict.get`.
A field that the code reads with `.get(key, default)` is modelled as an
`Option` (absent key = `none`); a field read with `[...]` is mandatory,
except the top-level `"groups"` key, whose absence the code turns into a
`KeyError` — hence `groups?` is an `Option`. -/

structure GroupSpec where
  name : String
  enabled : Option Bool
  description : Option String
deriving Repr, DecidableEq

structure AdlistSpec where
  url : String
  enabled : Option Bool
  description : Option String
  groups : List String
deriving Repr, DecidableEq

structure ConfigData where
  groups? : Option (List GroupSpec)
  adlists : List AdlistSpec
deriving Repr, DecidableEq

/-! ### Store rows and tables -/

structure GroupRow where
  id : Nat
  enabled : Bool
  name : String
  description : Option String
deriving Repr, DecidableEq

structure AdlistRow where
  id : Nat
  address : String
  enabled : Bool
  comment : Option String
deriving Repr, DecidableEq

structure MembershipRow where
  adlist_id : Nat
  group_id : Nat
deriving Repr, DecidableEq

@[ext]
structure DB where
  groups : List GroupRow
  adlists : List AdlistRow
  memberships : List MembershipRow
deriving Repr, DecidableEq

def DB.empty : DB := ⟨[], [], []⟩

def DB.addGroup (db : DB) (r : GroupRow) : DB :=
  { db with groups := db.groups ++ [r] }

def DB.addAdlist (db : DB) (r : AdlistRow) : DB :=
  { db with adlists := db.adlists ++ [r] }

def DB.addMem (db : DB) (r : MembershipRow) : DB :=
  { db with memberships := db.memberships ++ [r] }

/-! ### Errors and warnings

Modelled from the spec: `gravityyaml/errors.py` is not under `src/`.
The spec lists distinct error kinds; `DatabaseError` is the store-error
kind that `cli.py` catches first.  `keyError` and `typeError` are the
Python builtins raised by dict indexing and by bad constructor calls. -/

inductive PyError where
  | databaseError (msg : String)
  | configFileError (msg : String)
  | fileNotFoundError (msg : String)
  | keyError (key : String)
  | typeError (msg : String)
deriving Repr, DecidableEq

/-- One WARNING line printed by the group-reference loop: it carries the
missing group name and the URL of the adlist that referenced it. -/
structure Warning where
  groupName : String
  adlistUrl : String
deriving Repr, DecidableEq

/-! ### The transient group index

`group_index` is a Python dict from group name to rowid.  Assignment
prepends a binding (the newest binding shadows older ones) and lookup
returns the newest binding, which models insertion with overwrite. -/

abbrev GroupIndex := List (String × Nat)

def idxUpdate (idx : GroupIndex) (n : String) (v : Nat) : GroupIndex :=
  (n, v) :: idx

def idxLookup : GroupIndex → String → Option Nat
  | [], _ => none
  | (k, v) :: rest, n => if k = n then some v else idxLookup rest n

/-- The seed `group_index = {"Default": 0}` (line 75 of
`gravityyaml/gravityyaml.py`, line 85 of `gravityyaml.py`). -/
def seedIdx : GroupIndex := [("Default", 0)]

/-! ### Inserts

Modelled from the spec: `Database.insert` (`gravityyaml/database.py` is
not under `src/`) inserts a row and returns its generated integer id;
the schema file itself is out of scope per the spec, so an insert always
succeeds and the generated id of a fresh table is its row count plus
one. -/

def insertGroup (db : DB) (g : GroupSpec) : DB × Nat :=
  let rowid := db.groups.length + 1
  (db.addGroup ⟨rowid, g.enabled.getD true, g.name, g.description⟩, rowid)

def insertAdlist (db : DB) (a : AdlistSpec) : DB × Nat :=
  let rowid := db.adlists.length + 1
  (db.addAdlist ⟨rowid, a.url, a.enabled.getD true, a.description⟩, rowid)

/-! ### The importer loops (`populate_database`, lines 75-116) -/

/-- The `for group in self._data["groups"]` loop: insert a `group` row
per entry and record its rowid in the index under its name. -/
def processGroups : List GroupSpec → DB → GroupIndex → DB × GroupIndex
  | [], db, idx => (db, idx)
  | g :: rest, db, idx =>
      let p := insertGroup db g
      processGroups rest p.1 (idxUpdate idx g.name p.2)

/-- The `for group in adlist["groups"]` loop: resolve the name in the
index; a missing name prints a warning and is skipped; a resolved id of
0 (the Default group) is skipped; otherwise an `adlist_by_group` row is
inserted. -/
def processRefs (url : String) (listId : Nat) :
    List String → GroupIndex → DB → List Warning → DB × List Warning
  | [], _, db, ws => (db, ws)
  | n :: rest, idx, db, ws =>
      match idxLookup idx n with
      | none => processRefs url listId rest idx db (ws ++ [⟨n, url⟩])
      | some gid =>
          if gid = 0 then
            processRefs url listId rest idx db ws
          else
            processRefs url listId rest idx (db.addMem ⟨listId, gid⟩) ws

/-- The `for adlist in self._data["adlists"]` loop: insert an `adlist`
row per entry, then process its group references. -/
def processAdlists : List AdlistSpec → GroupIndex → DB → List Warning → DB × List Warning
  | [], _, db, ws => (db, ws)
  | a :: rest, idx, db, ws =>
      let p := insertAdlist db a
      let q := processRefs a.url p.2 a.groups idx p.1 ws
      processAdlists rest idx q.1 q.2

/-- `GravityYAML.populate_database` on loaded data and the store it
opens: reading `self._data["groups"]` on a document without that key
raises `KeyError`; otherwise both loops run and the transaction commits.
The result is the committed store and the warnings printed, in order. -/
def populate_database (data : ConfigData) (db : DB) :
    Except PyError (DB × List Warning) :=
  match data.groups? with
  | none => .error (.keyError "groups")
  | some gs =>
      let r1 := processGroups gs db seedIdx
      let r2 := processAdlists data.adlists r1.2 r1.1 []
      .ok r2

/-- Counts a run report would summarize, per the spec. -/
structure ImportReport where
  groupsCreated : Nat
  adlistsCreated : Nat
  membershipsCreated : Nat
  warningsEmitted : Nat
deriving Repr, DecidableEq

/-- The value `populate_database` returns to its caller: the function is
annotated `-> None` and has no return statement in either source
version, so its return value is `None` — never a report. -/
def populate_database_return (data : ConfigData) (db : DB) : Option ImportReport :=
  none

/-! ### Closed forms used to state the claims -/

/-- The `group` rows produced from a spec list when the next rowid is
`k`: one row per entry, in document order. -/
def groupRows : List GroupSpec → Nat → List GroupRow
  | [], _ => []
  | g :: rest, k => ⟨k, g.enabled.getD true, g.name, g.description⟩ :: groupRows rest (k + 1)

/-- The `adlist` rows produced from a spec list when the next rowid is
`k`: one row per entry, in document order. -/
def adlistRows : List AdlistSpec → Nat → List AdlistRow
  | [], _ => []
  | a :: rest, k => ⟨k, a.url, a.enabled.getD true, a.description⟩ :: adlistRows rest (k + 1)

/-- The index bindings added by `processGroups` when the next rowid is
`k`. -/
def idxAfter : List GroupSpec → Nat → GroupIndex → GroupIndex
  | [], _, idx => idx
  | g :: rest, k, idx => idxAfter rest (k + 1) (idxUpdate idx g.name k)

/-- The index in force when the adlist loop runs. -/
def finalIdx (gs : List GroupSpec) : GroupIndex :=
  idxAfter gs 1 seedIdx

/-- The membership rows one adlist contributes: one per reference that
resolves to a nonzero id; unresolved and Default references contribute
none. -/
def refMems (idx : GroupIndex) (listId : Nat) : List String → List MembershipRow
  | [] => []
  | n :: rest =>
      match idxLookup idx n with
      | none => refMems idx listId rest
      | some gid =>
          if gid = 0 then refMems idx listId rest
          else ⟨listId, gid⟩ :: refMems idx listId rest

/-- The warnings one adlist contributes: exactly one per reference that
is absent from the index, carrying the name and the adlist URL. -/
def refWarns (idx : GroupIndex) (url : String) : List String → List Warning
  | [] => []
  | n :: rest =>
      match idxLookup idx n with
      | none => ⟨n, url⟩ :: refWarns idx url rest
      | some _ => refWarns idx url rest

/-- All membership rows, across adlists whose rowids start at `k`. -/
def memsFrom (idx : GroupIndex) : List AdlistSpec → Nat → List MembershipRow
  | [], _ => []
  | a :: rest, k => refMems idx k a.groups ++ memsFrom idx rest (k + 1)

/-- All warnings, in print order. -/
def warnsFrom (idx : GroupIndex) : List AdlistSpec → List Warning
  | [] => []
  | a :: rest => refWarns idx a.url a.groups ++ warnsFrom idx rest

/-- The store a successful import of `⟨some gs, as⟩` into a fresh store
commits. -/
def finalStore (gs : List GroupSpec) (as : List AdlistSpec) : DB :=
  ⟨groupRows gs 1, adlistRows as 1, memsFrom (finalIdx gs) as 1⟩

/-- The 1-based rowid of the last entry named `n` in the remaining spec
list, when the next rowid is `k`. -/
def lastIdIn : List GroupSpec → Nat → String → Option Nat
  | [], _, _ => none
  | g :: rest, k, n =>
      match lastIdIn rest (k + 1) n with
      | some v => some v
      | none => if g.name = n then some k else none

/-! ### Config loading (`load_yaml`, lines 43-57) -/

/-- What the loader finds at `yaml_path`: either no file
(`os.path.isfile` is false) or a parsed document. -/
inductive YamlFile where
  | missing
  | parsed (data : ConfigData)
deriving Repr, DecidableEq

/-- `GravityYAML.load_yaml`.  On a missing file the source executes
`raise FileNotFoundError(message=...)`; `OSError` subclasses reject
keyword arguments, so that statement itself raises `TypeError` and the
intended message is never attached.  On a parsed document, fewer than
one adlist raises `ConfigFileError`. -/
def load_yaml (file : YamlFile) : Except PyError ConfigData :=
  match file with
  | .missing => .error (.typeError "FileNotFoundError does not take keyword arguments")
  | .parsed d =>
      if d.adlists.length < 1 then .error (.configFileError "No ad lists specified")
      else .ok d

/-! ### Store rotation (`init_database`, lines 28-41) -/

/-- The filesystem as the initializer sees it: store contents by path. -/
abbrev FS := String → Option DB

def FS.set (fs : FS) (p : String) (v : Option DB) : FS :=
  fun q => if q = p then v else fs q

/-- `GravityYAML.init_database`: if a store exists at `dbPath` it is
renamed to `dbPath ++ ".old-" ++ date` (`os.rename` overwrites an
existing destination), then `pathlib.Path(...).touch()` leaves an empty
store at `dbPath`. -/
def init_database (fs : FS) (dbPath date : String) : FS :=
  match fs dbPath with
  | some content =>
      let fs1 := FS.set fs (dbPath ++ ".old-" ++ date) (some content)
      let fs2 := FS.set fs1 dbPath none
      FS.set fs2 dbPath (some DB.empty)
  | none => FS.set fs dbPath (some DB.empty)

/-! ### The pipeline (`run`, lines 118-128) -/

/-- Outcome of one `GravityYAML.run`: the error it raised (if any), the
filesystem afterwards, and the warnings printed. -/
structure RunOutcome where
  error : Option PyError
  fs : FS
  warnings : List Warning

/-- `GravityYAML.run`: `load_yaml`, then `init_database`, then
`populate_database` against the freshly created empty store; a
successful import commits the resulting store to `dbPath`, a failing
one leaves the fresh empty store (the transaction never commits). -/
def run (file : YamlFile) (fs : FS) (dbPath date : String) : RunOutcome :=
  match load_yaml file with
  | .error e => ⟨some e, fs, []⟩
  | .ok data =>
      let fs1 := init_database fs dbPath date
      match populate_database data DB.empty with
      | .error e => ⟨some e, fs1, []⟩
      | .ok r => ⟨none, FS.set fs1 dbPath (some r.1), r.2⟩

/-! ### Exit codes (`cli.py`) -/

def EXIT_CODE_DEFAULT : Nat := 1
def EXIT_CODE_DATABASE_ERROR : Nat := 2
def EXIT_CODE_CONFIG_FILE_ERROR : Nat := 3
def EXIT_CODE_FILE_ERROR : Nat := 4

/-- Modelled from the spec: `gravityyaml/errors.py` is not under `src/`;
its error kinds are distinct, and `DatabaseError` is the store-error
kind. -/
def isDatabaseError : PyError → Bool
  | .databaseError _ => true
  | _ => false

/-- The process exit code of `cli` without `--debug`: 0 on normal
return, `EXIT_CODES["DATABASE_ERROR"]` for a `DatabaseError`, and
`EXIT_CODES["DEFAULT"]` for every other exception.  No other handler
exists: the CONFIG_FILE_ERROR and FILE_ERROR entries of `EXIT_CODES`
are never passed to `sys.exit`. -/
def cli_exit (file : YamlFile) (fs : FS) (dbPath date : String) : Nat :=
  match (run file fs dbPath date).error with
  | none => 0
  | some e => if isDatabaseError e then EXIT_CODE_DATABASE_ERROR else EXIT_CODE_DEFAULT

/-! ### Fault-injected transactional importer

Modelled from the spec: the `Database` context manager
(`gravityyaml/database.py` is not under `src/`) opens one transaction,
buffers inserts until `commit`, and rolls the transaction back in full
when the body raises before commit, so the store keeps its prior
contents.  `failOn` injects a store-write failure: the insert whose
sequence number satisfies it raises a `DatabaseError`. -/

def processGroupsTx (failOn : Nat → Bool) :
    List GroupSpec → DB → GroupIndex → Nat → Except PyError (DB × GroupIndex × Nat)
  | [], db, idx, c => .ok (db, idx, c)
  | g :: rest, db, idx, c =>
      if failOn c then .error (.databaseError "INSERT failed")
      else
        let p := insertGroup db g
        processGroupsTx failOn rest p.1 (idxUpdate idx g.name p.2) (c + 1)

def processRefsTx (failOn : Nat → Bool) (url : String) (listId : Nat) :
    List String → GroupIndex → DB → List Warning → Nat →
      Except PyError (DB × List Warning × Nat)
  | [], _, db, ws, c => .ok (db, ws, c)
  | n :: rest, idx, db, ws, c =>
      match idxLookup idx n with
      | none => processRefsTx failOn url listId rest idx db (ws ++ [⟨n, url⟩]) c
      | some gid =>
          if gid = 0 then
            processRefsTx failOn url listId rest idx db ws c
          else if failOn c then .error (.databaseError "INSERT failed")
          else processRefsTx failOn url listId rest idx (db.addMem ⟨listId, gid⟩) ws (c + 1)

def processAdlistsTx (failOn : Nat → Bool) :
    List AdlistSpec → GroupIndex → DB → List Warning → Nat →
      Except PyError (DB × List Warning × Nat)
  | [], _, db, ws, c => .ok (db, ws, c)
  | a :: rest, idx, db, ws, c =>
      if failOn c then .error (.databaseError "INSERT failed")
      else do
        let p := insertAdlist db a
        let q ← processRefsTx failOn a.url p.2 a.groups idx p.1 ws (c + 1)
        processAdlistsTx failOn rest idx q.1 q.2.1 q.2.2

/-- `populate_database` with the fault oracle threaded through the
inserts; the result is what the transaction holds at `commit`. -/
def populate_databaseTx (failOn : Nat → Bool) (data : ConfigData) (db : DB) :
    Except PyError (DB × List Warning) :=
  match data.groups? with
  | none => .error (.keyError "groups")
  | some gs => do
      let r1 ← processGroupsTx failOn gs db seedIdx 0
      let r2 ← processAdlistsTx failOn data.adlists r1.2.1 r1.1 [] r1.2.2
      .ok (r2.1, r2.2.1)

/-- The store that persists after the `with Database(...)` block exits:
a committed transaction persists its buffered state; an exception before
commit rolls back, leaving `store0` untouched. -/
def runTx (failOn : Nat → Bool) (data : ConfigData) (store0 : DB) :
    Option PyError × DB :=
  match populate_databaseTx failOn data store0 with
  | .ok r => (none, r.1)
  | .error e => (some e, store0)

/-- Per-table row counts of the store at a path, for comparing a re-run
with a fresh import. -/
def storeCounts (s : Option DB) : Nat × Nat × Nat :=
  match s with
  | none => (0, 0, 0)
  | some db => (db.groups.length, db.adlists.length, db.memberships.length)

/-! ## Characterization of the importer loops -/

theorem processRefs_groups (url : String) (listId : Nat) (refs : List String)
    (idx : GroupIndex) (db : DB) (ws : List Warning) :
    (processRefs url listId refs idx db ws).1.groups = db.groups := by
  induction refs generalizing db ws with
  | nil => rfl
  | cons n rest ih =>
      rcases h : idxLookup idx n with _ | gid
      · simp [processRefs, h, ih]
      · by_cases hz : gid = 0 <;> simp [processRefs, h, hz, ih, DB.addMem]

theorem processRefs_adlists (url : String) (listId : Nat) (refs : List String)
    (idx : GroupIndex) (db : DB) (ws : List Warning) :
    (processRefs url listId refs idx db ws).1.adlists = db.adlists := by
  induction refs generalizing db ws with
  | nil => rfl
  | cons n rest ih =>
      rcases h : idxLookup idx n with _ | gid
      · simp [processRefs, h, ih]
      · by_cases hz : gid = 0 <;> simp [processRefs, h, hz, ih, DB.addMem]

theorem processRefs_mems (url : String) (listId : Nat) (refs : List String)
    (idx : GroupIndex) (db : DB) (ws : List Warning) :
    (processRefs url listId refs idx db ws).1.memberships =
      db.memberships ++ refMems idx listId refs := by
  induction refs generalizing db ws with
  | nil => simp [processRefs, refMems]
  | cons n rest ih =>
      rcases h : idxLookup idx n with _ | gid
      · simp [processRefs, refMems, h, ih]
      · by_cases hz : gid = 0 <;>
          simp [processRefs, refMems, h, hz, ih, DB.addMem]

theorem processRefs_warns (url : String) (listId : Nat) (refs : List String)
    (idx : GroupIndex) (db : DB) (ws : List Warning) :
    (processRefs url listId refs idx db ws).2 = ws ++ refWarns idx url refs := by
  induction refs generalizing db ws with
  | nil => simp [processRefs, refWarns]
  | cons n rest ih =>
      rcases h : idxLookup idx n with _ | gid
      · simp [processRefs, refWarns, h, ih]
      · by_cases hz : gid = 0 <;> simp [processRefs, refWarns, h, hz, ih]

theorem processAdlists_groups (as : List AdlistSpec) (idx : GroupIndex)
    (db : DB) (ws : List Warning) :
    (processAdlists as idx db ws).1.groups = db.groups := by
  induction as generalizing db ws with
  | nil => rfl
  | cons a rest ih =>
      simp [processAdlists, ih, processRefs_groups, insertAdlist, DB.addAdlist]

theorem processAdlists_adlists (as : List AdlistSpec) (idx : GroupIndex)
    (db : DB) (ws : List Warning) :
    (processAdlists as idx db ws).1.adlists =
      db.adlists ++ adlistRows as (db.adlists.length + 1) := by
  induction as generalizing db ws with
  | nil => simp [processAdlists, adlistRows]
  | cons a rest ih =>
      simp [processAdlists, adlistRows, ih, processRefs_adlists, insertAdlist, DB.addAdlist]

theorem processAdlists_mems (as : List AdlistSpec) (idx : GroupIndex)
    (db : DB) (ws : List Warning) :
    (processAdlists as idx db ws).1.memberships =
      db.memberships ++ memsFrom idx as (db.adlists.length + 1) := by
  induction as generalizing db ws with
  | nil => simp [processAdlists, memsFrom]
  | cons a rest ih =>
      simp [processAdlists, memsFrom, ih, processRefs_mems, processRefs_adlists,
        insertAdlist, DB.addAdlist]

theorem processAdlists_warns (as : List AdlistSpec) (idx : GroupIndex)
    (db : DB) (ws : List Warning) :
    (processAdlists as idx db ws).2 = ws ++ warnsFrom idx as := by
  induction as generalizing db ws with
  | nil => simp [processAdlists, warnsFrom]
  | cons a rest ih =>
      simp [processAdlists, warnsFrom, ih, processRefs_warns, insertAdlist]

theorem processGroups_groups (gs : List GroupSpec) (db : DB) (idx : GroupIndex) :
    (processGroups gs db idx).1.groups =
      db.groups ++ groupRows gs (db.groups.length + 1) := by
  induction gs generalizing db idx with
  | nil => simp [processGroups, groupRows]
  | cons g rest ih =>
      simp [processGroups, groupRows, ih, insertGroup, DB.addGroup]

theorem processGroups_adlists (gs : List GroupSpec) (db : DB) (idx : GroupIndex) :
    (processGroups gs db idx).1.adlists = db.adlists := by
  induction gs generalizing db idx with
  | nil => rfl
  | cons g rest ih => simp [processGroups, ih, insertGroup, DB.addGroup]

theorem processGroups_mems (gs : List GroupSpec) (db : DB) (idx : GroupIndex) :
    (processGroups gs db idx).1.memberships = db.memberships := by
  induction gs generalizing db idx with
  | nil => rfl
  | cons g rest ih => simp [processGroups, ih, insertGroup, DB.addGroup]

theorem processGroups_idx (gs : List GroupSpec) (db : DB) (idx : GroupIndex) :
    (processGroups gs db idx).2 = idxAfter gs (db.groups.length + 1) idx := by
  induction gs generalizing db idx with
  | nil => rfl
  | cons g rest ih =>
      simp [processGroups, idxAfter, ih, insertGroup, DB.addGroup]

/-- A successful import of a document with a `groups` key into a fresh
store, in closed form. -/
theorem populate_database_ok (gs : List GroupSpec) (as : List AdlistSpec) :
    populate_database ⟨some gs, as⟩ DB.empty =
      .ok (finalStore gs as, warnsFrom (finalIdx gs) as) := by
  have hidx : (processGroups gs DB.empty seedIdx).2 = finalIdx gs := by
    simpa [DB.empty, finalIdx] using processGroups_idx gs DB.empty seedIdx
  have hg := processGroups_groups gs DB.empty seedIdx
  have hga := processGroups_adlists gs DB.empty seedIdx
  have hgm := processGroups_mems gs DB.empty seedIdx
  unfold populate_database
  simp only []
  apply congrArg
  apply Prod.ext
  · apply DB.ext
    · rw [processAdlists_groups, hg]; simp [DB.empty, finalStore]
    · rw [processAdlists_adlists, hga]; simp [DB.empty, finalStore]
    · rw [processAdlists_mems, hgm, hga, hidx]; simp [DB.empty, finalStore]
  · rw [processAdlists_warns, hidx]; simp [finalStore]

theorem groupRows_length (gs : List GroupSpec) (k : Nat) :
    (groupRows gs k).length = gs.length := by
  induction gs generalizing k with
  | nil => rfl
  | cons g rest ih => simp [groupRows, ih]

theorem adlistRows_length (as : List AdlistSpec) (k : Nat) :
    (adlistRows as k).length = as.length := by
  induction as generalizing k with
  | nil => rfl
  | cons a rest ih => simp [adlistRows, ih]

theorem refMems_group_id_ne_zero (idx : GroupIndex) (listId : Nat)
    (refs : List String) (m : MembershipRow) (hm : m ∈ refMems idx listId refs) :
    m.group_id ≠ 0 := by
  induction refs with
  | nil => simp [refMems] at hm
  | cons n rest ih =>
      rcases h : idxLookup idx n with _ | gid
      · rw [refMems, h] at hm
        exact ih hm
      · by_cases hz : gid = 0
        · rw [refMems, h] at hm
          simp [hz] at hm
          exact ih hm
        · rw [refMems, h] at hm
          simp [hz] at hm
          rcases hm with hm | hm
          · rw [hm]; exact hz
          · exact ih hm

theorem memsFrom_group_id_ne_zero (idx : GroupIndex) (as : List AdlistSpec)
    (k : Nat) (m : MembershipRow) (hm : m ∈ memsFrom idx as k) : m.group_id ≠ 0 := by
  induction as generalizing k with
  | nil => simp [memsFrom] at hm
  | cons a rest ih =>
      simp only [memsFrom, List.mem_append] at hm
      rcases hm with hm | hm
      · exact refMems_group_id_ne_zero idx k a.groups m hm
      · exact ih _ hm

/-! ## The claims -/

/-- C1: for every valid document with at least one adlist, the import
succeeds, and the committed store holds exactly one `group` row per
entry of the `groups` sequence and exactly one `adlist` row per entry of
the `adlists` sequence, in document order (ids 1, 2, ... follow the
document). -/
theorem c1_one_row_per_entry_in_document_order (gs : List GroupSpec)
    (as : List AdlistSpec) (h : as ≠ []) :
    ∃ db ws, populate_database ⟨some gs, as⟩ DB.empty = .ok (db, ws)
      ∧ db.groups = groupRows gs 1
      ∧ db.adlists = adlistRows as 1 :=
  ⟨finalStore gs as, warnsFrom (finalIdx gs) as, populate_database_ok gs as, rfl, rfl⟩

theorem c1_witness :
    ([(⟨"http://a", none, none, []⟩ : AdlistSpec)] ≠ ([] : List AdlistSpec))
    ∧ ∃ db ws,
        populate_database ⟨some [], [⟨"http://a", none, none, []⟩]⟩ DB.empty = .ok (db, ws)
        ∧ db.groups = groupRows [] 1
        ∧ db.adlists = adlistRows [⟨"http://a", none, none, []⟩] 1 :=
  ⟨by decide,
    c1_one_row_per_entry_in_document_order [] [⟨"http://a", none, none, []⟩] (by decide)⟩

/-- C2: no committed `adlist_by_group` row ever carries the Default
group id 0 — for every document, including documents whose adlists
reference "Default" and documents that declare their own group named
"Default" (whose references then resolve to that row's nonzero id). -/
theorem c2_no_default_membership_rows (gs : List GroupSpec) (as : List AdlistSpec)
    (db : DB) (ws : List Warning)
    (h : populate_database ⟨some gs, as⟩ DB.empty = .ok (db, ws)) :
    ∀ m ∈ db.memberships, m.group_id ≠ 0 := by
  rw [populate_database_ok] at h
  obtain ⟨h1, h2⟩ := Prod.mk.injEq .. ▸ (Except.ok.inj h)
  intro m hm
  rw [← h1] at hm
  exact memsFrom_group_id_ne_zero (finalIdx gs) as 1 m hm

theorem c2_witness :
    populate_database
        ⟨some [⟨"Default", none, none⟩], [⟨"http://a", none, none, ["Default"]⟩]⟩
        DB.empty
      = .ok (⟨[⟨1, true, "Default", none⟩], [⟨1, "http://a", true, none⟩], [⟨1, 1⟩]⟩, [])
    ∧ ∀ m ∈ ([⟨1, 1⟩] : List MembershipRow), m.group_id ≠ 0 :=
  ⟨by rfl,
    c2_no_default_membership_rows [⟨"Default", none, none⟩]
      [⟨"http://a", none, none, ["Default"]⟩]
      ⟨[⟨1, true, "Default", none⟩], [⟨1, "http://a", true, none⟩], [⟨1, 1⟩]⟩ []
      (by rfl)⟩

/-- C3: references that miss the index produce exactly one warning per
occurrence, carrying the missing name and the adlist URL (`refWarns`
emits one `Warning` per missing reference, in order), contribute no
membership row (`refMems` drops them), and leave every adlist row and
every other membership intact: the import still commits one `adlist`
row per entry and exactly the memberships of the resolvable non-Default
references. -/
theorem c3_unresolved_refs_warn_and_skip (gs : List GroupSpec) (as : List AdlistSpec) :
    ∃ db ws, populate_database ⟨some gs, as⟩ DB.empty = .ok (db, ws)
      ∧ ws = warnsFrom (finalIdx gs) as
      ∧ db.memberships = memsFrom (finalIdx gs) as 1
      ∧ db.adlists = adlistRows as 1 :=
  ⟨finalStore gs as, warnsFrom (finalIdx gs) as, populate_database_ok gs as,
    rfl, rfl, rfl⟩

/-- C9 counterexample: a concrete run that succeeds while the value
`populate_database` returns is `None`, not an `ImportReport`. -/
theorem c9_counterexample_no_report_returned :
    (∃ db ws,
      populate_database ⟨some [], [⟨"http://a", none, none, []⟩]⟩ DB.empty = .ok (db, ws))
    ∧ populate_database_return ⟨some [], [⟨"http://a", none, none, []⟩]⟩ DB.empty = none :=
  ⟨⟨finalStore [] [⟨"http://a", none, none, []⟩],
      warnsFrom (finalIdx []) [⟨"http://a", none, none, []⟩],
      populate_database_ok [] [⟨"http://a", none, none, []⟩]⟩, rfl⟩

/-- C9 amended: the import operation returns `None` rather than an
`ImportReport`; the counts such a report would summarize are
nevertheless determined by the document — one group row per `GroupSpec`,
one adlist row per `AdlistSpec`, the memberships of the resolvable
non-Default references, and one warning per unresolved reference. -/
theorem c9_amended_returns_none_counts_determined (gs : List GroupSpec)
    (as : List AdlistSpec) :
    populate_database_return ⟨some gs, as⟩ DB.empty = none
    ∧ ∃ db ws, populate_database ⟨some gs, as⟩ DB.empty = .ok (db, ws)
        ∧ db.groups.length = gs.length
        ∧ db.adlists.length = as.length
        ∧ db.memberships = memsFrom (finalIdx gs) as 1
        ∧ ws = warnsFrom (finalIdx gs) as :=
  ⟨rfl,
    ⟨finalStore gs as, warnsFrom (finalIdx gs) as, populate_database_ok gs as,
      groupRows_length gs 1, adlistRows_length as 1, rfl, rfl⟩⟩

/-- C10: a loaded document with no `groups` key at all makes the import
raise `KeyError` at `self._data["groups"]` — the absent key is not
treated as an empty sequence — while a document whose `groups` sequence
is present but empty imports successfully. -/
theorem c10_missing_groups_key_raises_keyerror (as : List AdlistSpec) (db : DB) :
    populate_database ⟨none, as⟩ db = .error (.keyError "groups")
    ∧ ∃ db2 ws, populate_database ⟨some [], as⟩ DB.empty = .ok (db2, ws) :=
  ⟨rfl, ⟨finalStore [] as, warnsFrom (finalIdx []) as, populate_database_ok [] as⟩⟩

/-! ## Index lookup after the group loop -/

theorem idxAfter_lookup (gs : List GroupSpec) (k : Nat) (idx : GroupIndex)
    (n : String) :
    idxLookup (idxAfter gs k idx) n =
      match lastIdIn gs k n with
      | some v => some v
      | none => idxLookup idx n := by
  induction gs generalizing k idx with
  | nil => simp [idxAfter, lastIdIn]
  | cons g rest ih =>
      rw [idxAfter, ih]
      rcases h : lastIdIn rest (k + 1) n with _ | v
      · by_cases hn : g.name = n <;> simp [lastIdIn, idxLookup, idxUpdate, h, hn]
      · simp [lastIdIn, h]

theorem lastIdIn_append (xs ys : List GroupSpec) (k : Nat) (n : String) :
    lastIdIn (xs ++ ys) k n =
      match lastIdIn ys (k + xs.length) n with
      | some v => some v
      | none => lastIdIn xs k n := by
  induction xs generalizing k with
  | nil =>
      simp only [List.nil_append, List.length_nil, Nat.add_zero, lastIdIn]
      rcases lastIdIn ys k n with _ | v <;> simp
  | cons x rest ih =>
      have hk : k + 1 + rest.length = k + (rest.length + 1) := by omega
      rw [List.cons_append, lastIdIn, ih, hk]
      simp only [List.length_cons]
      rcases lastIdIn ys (k + (rest.length + 1)) n with _ | v
      · simp [lastIdIn]
      · simp

theorem lastIdIn_of_not_mem (gs : List GroupSpec) (k : Nat) (n : String)
    (h : ∀ g ∈ gs, g.name ≠ n) : lastIdIn gs k n = none := by
  induction gs generalizing k with
  | nil => rfl
  | cons g rest ih =>
      have hg : g.name ≠ n := h g (List.mem_cons_self g rest)
      have hrest := ih (k + 1) (fun g hgm => h g (List.mem_cons_of_mem _ hgm))
      simp [lastIdIn, hrest, hg]

theorem refMems_single (idx : GroupIndex) (lid : Nat) (n : String) (gid : Nat)
    (h : idxLookup idx n = some gid) (hz : gid ≠ 0) :
    refMems idx lid [n] = [⟨lid, gid⟩] := by
  simp [refMems, h, hz]

/-- C7: a document whose `groups` sequence holds two entries with the
same name gets one `group` row per entry (no de-duplication), the group
index finishes holding the rowid of the later entry (its position plus
one), and every adlist reference to that name resolves to the later
rowid. -/
theorem c7_duplicate_group_names_last_write_wins (pre mid post : List GroupSpec)
    (g1 g2 : GroupSpec) (as : List AdlistSpec)
    (hname : g1.name = g2.name)
    (hpost : ∀ g ∈ post, g.name ≠ g2.name) :
    ∃ db ws,
      populate_database ⟨some (pre ++ g1 :: mid ++ g2 :: post), as⟩ DB.empty
        = .ok (db, ws)
      ∧ db.groups.length = (pre ++ g1 :: mid ++ g2 :: post).length
      ∧ idxLookup (finalIdx (pre ++ g1 :: mid ++ g2 :: post)) g2.name
          = some (pre.length + mid.length + 2)
      ∧ (∀ listId : Nat,
          refMems (finalIdx (pre ++ g1 :: mid ++ g2 :: post)) listId [g2.name]
            = [⟨listId, pre.length + mid.length + 2⟩])
      ∧ db.memberships
          = memsFrom (finalIdx (pre ++ g1 :: mid ++ g2 :: post)) as 1 := by
  have hlook : idxLookup (finalIdx (pre ++ g1 :: mid ++ g2 :: post)) g2.name
      = some (pre.length + mid.length + 2) := by
    have hpostn :=
      lastIdIn_of_not_mem post (pre.length + mid.length + 2 + 1) g2.name hpost
    have h2 : lastIdIn (g2 :: post) (pre.length + mid.length + 2) g2.name
        = some (pre.length + mid.length + 2) := by
      simp [lastIdIn, hpostn]
    have harith : 1 + (pre ++ g1 :: mid).length = pre.length + mid.length + 2 := by
      simp only [List.length_append, List.length_cons]
      omega
    have hall : lastIdIn (pre ++ g1 :: mid ++ g2 :: post) 1 g2.name
        = some (pre.length + mid.length + 2) := by
      rw [lastIdIn_append, harith, h2]
    simp only [finalIdx]
    rw [idxAfter_lookup, hall]
  refine ⟨finalStore (pre ++ g1 :: mid ++ g2 :: post) as,
    warnsFrom (finalIdx (pre ++ g1 :: mid ++ g2 :: post)) as,
    populate_database_ok _ as, ?_, hlook, ?_, rfl⟩
  · exact groupRows_length _ 1
  · intro listId
    exact refMems_single _ listId _ _ hlook (by omega)

theorem c7_witness :
    ((⟨"A", none, none⟩ : GroupSpec).name = (⟨"A", none, none⟩ : GroupSpec).name)
    ∧ (∀ g ∈ ([] : List GroupSpec), g.name ≠ (⟨"A", none, none⟩ : GroupSpec).name)
    ∧ ∃ db ws,
        populate_database ⟨some [⟨"A", none, none⟩, ⟨"A", none, none⟩], []⟩ DB.empty
          = .ok (db, ws)
        ∧ db.groups.length = ([⟨"A", none, none⟩, ⟨"A", none, none⟩] : List GroupSpec).length
        ∧ idxLookup (finalIdx [⟨"A", none, none⟩, ⟨"A", none, none⟩])
            (⟨"A", none, none⟩ : GroupSpec).name = some 2
        ∧ (∀ listId : Nat,
            refMems (finalIdx [⟨"A", none, none⟩, ⟨"A", none, none⟩]) listId
              [(⟨"A", none, none⟩ : GroupSpec).name] = [⟨listId, 2⟩])
        ∧ db.memberships = memsFrom (finalIdx [⟨"A", none, none⟩, ⟨"A", none, none⟩]) [] 1 :=
  ⟨rfl, by simp,
    c7_duplicate_group_names_last_write_wins [] [] [] ⟨"A", none, none⟩
      ⟨"A", none, none⟩ [] rfl (by simp)⟩

/-! ## The pipeline-level claims -/

theorem FS.set_self (fs : FS) (p : String) (v : Option DB) : FS.set fs p v p = v := by
  simp [FS.set]

theorem FS.set_ne (fs : FS) (p q : String) (v : Option DB) (h : q ≠ p) :
    FS.set fs p v q = fs q := by
  simp [FS.set, h]

theorem archive_path_ne (p date : String) : p ++ ".old-" ++ date ≠ p := by
  intro h
  have hl := congrArg String.length h
  have h5 : (".old-" : String).length = 5 := rfl
  simp [String.length_append, h5] at hl
  omega

/-- A parsed document with a `groups` key and a nonempty `adlists`
sequence runs the whole pipeline: the prior store (if any) is archived,
and the committed store lands at `dbPath`. -/
theorem run_parsed_ok (gs : List GroupSpec) (as : List AdlistSpec) (has : as ≠ [])
    (fs : FS) (dbPath date : String) :
    run (.parsed ⟨some gs, as⟩) fs dbPath date =
      ⟨none, FS.set (init_database fs dbPath date) dbPath (some (finalStore gs as)),
        warnsFrom (finalIdx gs) as⟩ := by
  have hlen : ¬(as.length < 1) := by
    cases as with
    | nil => exact absurd rfl has
    | cons a t => simp
  simp [run, load_yaml, hlen, populate_database_ok]

/-- C4: a document whose `adlists` sequence is empty fails validation in
`load_yaml`, before `init_database` or `populate_database` runs: the
run raises `ConfigFileError` and the filesystem is returned untouched —
no archive rename, no store creation, no row insertion. -/
theorem c4_empty_adlists_fails_before_store_mutation (d : ConfigData)
    (h : d.adlists = []) (fs : FS) (dbPath date : String) :
    run (.parsed d) fs dbPath date =
      ⟨some (.configFileError "No ad lists specified"), fs, []⟩ := by
  simp [run, load_yaml, h]

theorem c4_witness :
    (⟨some [], []⟩ : ConfigData).adlists = []
    ∧ run (.parsed ⟨some [], []⟩) (fun _ => none) "/etc/pihole/gravity.db" "2026-10-12"
        = ⟨some (.configFileError "No ad lists specified"), (fun _ => none), []⟩ :=
  ⟨rfl,
    c4_empty_adlists_fails_before_store_mutation ⟨some [], []⟩ rfl
      (fun _ => none) "/etc/pihole/gravity.db" "2026-10-12"⟩

/-- C5: when a store write fails inside the open transaction — before
`commit` — the transaction rolls back in full: the persisted store is
exactly the store that existed when the transaction opened, so no group,
adlist, or membership row from the failed run persists. -/
theorem c5_rollback_on_failure (failOn : Nat → Bool) (data : ConfigData)
    (store0 : DB) (e : PyError)
    (h : populate_databaseTx failOn data store0 = .error e) :
    runTx failOn data store0 = (some e, store0) := by
  simp [runTx, h]

theorem c5_witness :
    populate_databaseTx (fun c => c == 1)
        ⟨some [⟨"G", none, none⟩], [⟨"http://a", none, none, ["G"]⟩]⟩ DB.empty
      = .error (.databaseError "INSERT failed")
    ∧ runTx (fun c => c == 1)
        ⟨some [⟨"G", none, none⟩], [⟨"http://a", none, none, ["G"]⟩]⟩ DB.empty
      = (some (.databaseError "INSERT failed"), DB.empty) :=
  ⟨by rfl,
    c5_rollback_on_failure (fun c => c == 1)
      ⟨some [⟨"G", none, none⟩], [⟨"http://a", none, none, ["G"]⟩]⟩ DB.empty
      (.databaseError "INSERT failed") (by rfl)⟩

/-- C6: running the importer again over the store produced by a first
run archives that store to `dbPath ++ ".old-" ++ date` — overwriting
whatever was at the archive path, including a same-day archive — and
commits a store whose per-table row counts equal those of a
fresh import of the same document. -/
theorem c6_rerun_archives_and_matches_fresh_import (d : ConfigData)
    (gs : List GroupSpec) (hg : d.groups? = some gs) (ha : d.adlists ≠ [])
    (fs0 : FS) (dbPath date : String) :
    (run (.parsed d) (run (.parsed d) fs0 dbPath date).fs dbPath date).error = none
    ∧ (run (.parsed d) (run (.parsed d) fs0 dbPath date).fs dbPath date).fs
        (dbPath ++ ".old-" ++ date)
        = (run (.parsed d) fs0 dbPath date).fs dbPath
    ∧ storeCounts
        ((run (.parsed d) (run (.parsed d) fs0 dbPath date).fs dbPath date).fs dbPath)
        = storeCounts ((run (.parsed d) (fun _ => none) dbPath date).fs dbPath) := by
  obtain ⟨gq, as⟩ := d
  have hgq : gq = some gs := hg
  subst hgq
  have hne := archive_path_ne dbPath date
  refine ⟨?_, ?_, ?_⟩ <;>
    simp only [run_parsed_ok gs as ha] <;>
    simp [init_database, FS.set_self, FS.set_ne _ _ _ _ hne]

theorem c6_witness :
    (⟨some [], [⟨"http://a", none, none, []⟩]⟩ : ConfigData).groups? = some []
    ∧ (⟨some [], [⟨"http://a", none, none, []⟩]⟩ : ConfigData).adlists ≠ []
    ∧ ((run (.parsed ⟨some [], [⟨"http://a", none, none, []⟩]⟩)
          (run (.parsed ⟨some [], [⟨"http://a", none, none, []⟩]⟩)
            (fun _ => none) "g.db" "2026-10-12").fs "g.db" "2026-10-12").error = none
      ∧ (run (.parsed ⟨some [], [⟨"http://a", none, none, []⟩]⟩)
          (run (.parsed ⟨some [], [⟨"http://a", none, none, []⟩]⟩)
            (fun _ => none) "g.db" "2026-10-12").fs "g.db" "2026-10-12").fs
          ("g.db" ++ ".old-" ++ "2026-10-12")
          = (run (.parsed ⟨some [], [⟨"http://a", none, none, []⟩]⟩)
              (fun _ => none) "g.db" "2026-10-12").fs "g.db"
      ∧ storeCounts
          ((run (.parsed ⟨some [], [⟨"http://a", none, none, []⟩]⟩)
            (run (.parsed ⟨some [], [⟨"http://a", none, none, []⟩]⟩)
              (fun _ => none) "g.db" "2026-10-12").fs "g.db" "2026-10-12").fs "g.db")
          = storeCounts
              ((run (.parsed ⟨some [], [⟨"http://a", none, none, []⟩]⟩)
                (fun _ => none) "g.db" "2026-10-12").fs "g.db")) :=
  ⟨rfl, by decide,
    c6_rerun_archives_and_matches_fresh_import
      ⟨some [], [⟨"http://a", none, none, []⟩]⟩ [] rfl (by decide)
      (fun _ => none) "g.db" "2026-10-12"⟩

/-- The exit code of a non-debug CLI run is always 0, DEFAULT (1) or
DATABASE_ERROR (2): `cli.py` installs no handler that exits with the
CONFIG_FILE_ERROR or FILE_ERROR codes. -/
theorem cli_exit_cases (file : YamlFile) (fs : FS) (p dt : String) :
    cli_exit file fs p dt = 0 ∨ cli_exit file fs p dt = EXIT_CODE_DEFAULT
      ∨ cli_exit file fs p dt = EXIT_CODE_DATABASE_ERROR := by
  unfold cli_exit
  rcases (run file fs p dt).error with _ | e
  · simp
  · by_cases hd : isDatabaseError e <;> simp [hd]

/-- C8: the claim fails on the code twice over.  A run whose config path
resolves to no file does not raise the intended file-not-found error:
the statement `raise FileNotFoundError(message=...)` itself raises
`TypeError` because `OSError` subclasses reject keyword arguments, and
the CLI maps it to exit code 1, not 4.  Moreover no execution path exits
with code 3 (CONFIG_FILE_ERROR) or 4 (FILE_ERROR): the only handlers
exit with DATABASE_ERROR (2) or DEFAULT (1). -/
theorem c8_exit_codes_code_bug :
    (run .missing (fun _ => none) "/etc/pihole/gravity.db" "2026-10-12").error
        = some (.typeError "FileNotFoundError does not take keyword arguments")
    ∧ cli_exit .missing (fun _ => none) "/etc/pihole/gravity.db" "2026-10-12"
        = EXIT_CODE_DEFAULT
    ∧ (∀ (file : YamlFile) (fs : FS) (p dt : String),
        cli_exit file fs p dt ≠ EXIT_CODE_CONFIG_FILE_ERROR
        ∧ cli_exit file fs p dt ≠ EXIT_CODE_FILE_ERROR) := by
  refine ⟨rfl, rfl, ?_⟩
  intro file fs p dt
  rcases cli_exit_cases file fs p dt with h | h | h <;>
    rw [h] <;>
    exact ⟨by decide, by decide⟩

end GravityYaml
